import Mathlib

/-!
Verification of the ruix microkernel core against its specification.

The Rust sources under `src/` are shallowly embedded: machine integers
(`u64`, `u32`, `i32`, `usize`) become `Nat`/`Int` with explicit wrapping
where it matters, `VecDeque`/`Vec` become `List`, global mutable state is
threaded explicitly, and fallible operations return `Except`/`Option`.
-/

namespace Ruix

/-- Embeds `u64::MAX`, the value of `-1i64 as u64` used as the "wait for any child"
argument in the kernel. -/
def U64MAX : Nat := 2 ^ 64 - 1

/-- Interpret a `u64` value as an `i32` the way Rust `as i32` does:
truncate to 32 bits, then take the two's-complement reading. -/
def toI32 (n : Nat) : Int :=
  let m : Nat := n % 2 ^ 32
  if m < 2 ^ 31 then (m : Int) else (m : Int) - 2 ^ 32

/-- Embeds `WaitReason` from `src/process/mod.rs`. -/
inductive WaitReason where
  | Child (pid : Nat)
  | IpcReceive (ch : Nat)
  | IpcSend (ch : Nat)
  | Sleep (ticks : Nat)
  | AsyncPoll
deriving DecidableEq, Repr

/-- Embeds `ProcessState` from `src/process/mod.rs`. -/
inductive ProcessState where
  | Running
  | Ready
  | Waiting (reason : WaitReason)
  | Zombie
  | Stopped
deriving DecidableEq, Repr

/-- Embeds `ProcessContext` from `src/process/mod.rs`: the saved register frame
(15 GPRs in pop order, then the CPU-pushed IRETQ tail). -/
structure ProcessContext where
  r15 : Nat
  r14 : Nat
  r13 : Nat
  r12 : Nat
  rbp : Nat
  rbx : Nat
  r11 : Nat
  r10 : Nat
  r9 : Nat
  r8 : Nat
  rdi : Nat
  rsi : Nat
  rdx : Nat
  rcx : Nat
  rax : Nat
  rip : Nat
  cs : Nat
  rflags : Nat
  rsp : Nat
  ss : Nat
deriving DecidableEq, Repr

/-- Embeds `ResourceLimits` from `src/process/mod.rs`. -/
structure ResourceLimits where
  max_memory : Nat
  max_cpu_time : Nat
  max_processes : Nat
  max_files : Nat
deriving DecidableEq, Repr

/-- Embeds `ResourceLimits::default()`. -/
def ResourceLimits.default : ResourceLimits :=
  { max_memory := 64 * 1024 * 1024
    max_cpu_time := 30 * 1000
    max_processes := 32
    max_files := 16 }

/-- Embeds `ProcessStats` from `src/process/mod.rs`. -/
structure ProcessStats where
  cpu_time_used : Nat
  memory_used : Nat
  children_count : Nat
  files_opened : Nat
deriving DecidableEq, Repr

/-- Embeds `ProcessStats::default()`. -/
def ProcessStats.default : ProcessStats :=
  { cpu_time_used := 0, memory_used := 0, children_count := 0, files_opened := 0 }

/-- The `Process` PCB from `src/process/mod.rs`.  `context_ptr` is the
kernel-stack address of the saved `ProcessContext`, kept abstract as a
number exactly as the scheduler treats it. -/
structure Proc where
  id : Nat
  context_ptr : Nat
  page_table_frame : Nat
  state : ProcessState
  parent_id : Nat
  children : List Nat
  exit_code : Int
  priority : Nat
  resource_limits : ResourceLimits
  stats : ProcessStats
  process_group_id : Nat
  session_id : Nat
  creation_time : Nat
deriving DecidableEq, Repr

/-- Embeds `Process::new` from `src/process/mod.rs` (the PCB part; the fresh
context written on the kernel stack is returned alongside).  The
`context_ptr` is `stack_top - size_of ProcessContext` = `stack_top - 160`. -/
def Process.new (id entry_point stack_top page_table_frame creation_time : Nat) :
    Proc × ProcessContext :=
  let ctx : ProcessContext :=
    { r15 := 0, r14 := 0, r13 := 0, r12 := 0, rbp := 0, rbx := 0,
      r11 := 0, r10 := 0, r9 := 0, r8 := 0, rdi := 0, rsi := 0,
      rdx := 0, rcx := 0, rax := 0,
      rip := entry_point, cs := 0x23, rflags := 0x202,
      rsp := stack_top, ss := 0x1b }
  ({ id := id
     context_ptr := stack_top - 160
     page_table_frame := page_table_frame
     state := ProcessState.Ready
     parent_id := 0
     children := []
     exit_code := 0
     priority := 10
     resource_limits := ResourceLimits.default
     stats := ProcessStats.default
     process_group_id := id
     session_id := id
     creation_time := creation_time }, ctx)

/-- Embeds `Process::fork` from `src/process/mod.rs`: build the child PCB from the
parent's saved context, inherit relationship and policy fields, copy the
register state and zero the child's saved `rax`.  The caller supplies the
freshly allocated pid and the frame/time the allocator would produce. -/
def Process.fork (parent : Proc) (parent_ctx : ProcessContext)
    (child_pid child_frame child_time : Nat) : Proc × ProcessContext :=
  let fresh := Process.new child_pid parent_ctx.rip parent_ctx.rsp child_frame child_time
  let child :=
    { fresh.1 with
      parent_id := parent.id
      process_group_id := parent.process_group_id
      session_id := parent.session_id
      priority := parent.priority
      resource_limits := parent.resource_limits }
  let child_ctx := { parent_ctx with rax := 0 }
  (child, child_ctx)

/-! ### Syscall argument validation (`src/syscall.rs`) -/

/-- Embeds `SyscallError` from `src/syscall.rs` (the variants used by
`validate_user_pointer`). -/
inductive SyscallError where
  | InvalidStackPointer
  | InvalidSyscallNumber (n : Nat)
  | InvalidPointer (p : Nat)
  | AccessViolation (v : Nat)
  | BoundsExceeded
deriving DecidableEq, Repr

/-- Embeds `validate_user_pointer` from `src/syscall.rs`: null check, user-range
check on `ptr`, per-call 4 KiB size cap, and a checked `ptr + size`
upper-bound test (the `checked_add` failing on `u64` overflow). -/
def validate_user_pointer (ptr size : Nat) : Except SyscallError Unit :=
  if ptr = 0 then Except.error (SyscallError.InvalidPointer 0)
  else if ptr < 0x400000 ∨ ptr > 0x7FFFFFFF then
    Except.error (SyscallError.InvalidPointer ptr)
  else if size > 0x1000 then Except.error SyscallError.BoundsExceeded
  else if ptr + size ≥ 2 ^ 64 then Except.error SyscallError.BoundsExceeded
  else if ptr + size > 0x7FFFFFFF then Except.error SyscallError.BoundsExceeded
  else Except.ok ()

/-- Whether pointer validation succeeds. -/
def validates (ptr size : Nat) : Bool :=
  match validate_user_pointer ptr size with
  | Except.ok _ => true
  | Except.error _ => false

end Ruix

namespace Ruix

/-! ### The kernel state seen by the process-related syscalls -/

/-- The mutable state the process syscalls touch: the scheduler's process
deque, the `NEXT_PID` allocator and `CPU_DATA.current_process_id`. -/
structure SysState where
  procs : List Proc
  next_pid : Nat
  current_process_id : Nat
deriving DecidableEq, Repr

/-- The `for … { if id == pid { children.push(c); break } }` loop of the
fork syscall: append `c` to the children of the first process whose id is
`pid`. -/
def pushChildToFirst (pid c : Nat) : List Proc → List Proc
  | [] => []
  | p :: ps =>
    if p.id = pid then { p with children := p.children ++ [c] } :: ps
    else p :: pushChildToFirst pid c ps

/-- Syscall 57 (`fork`) from `rust_syscall_handler` in `src/syscall.rs`:
check the front process is the caller, allocate a fresh pid, record it in
the caller's `children` list and return it.  (No child PCB is built on
this path; `Process::fork` is not invoked.) -/
def syscallFork (s : SysState) : Int × SysState :=
  match s.procs with
  | [] => (-1, s)
  | parent :: _ =>
    if parent.id = s.current_process_id then
      let child_pid := s.next_pid
      let s' : SysState :=
        { s with
          next_pid := s.next_pid + 1
          procs := pushChildToFirst s.current_process_id child_pid s.procs }
      ((child_pid : Int), s')
    else (-1, s)

/-- The `for … { if id == pid { state := Zombie; exit_code := code; break } }`
loop of the exit syscall: mark the first process with id `pid` Zombie. -/
def setZombieFirst (pid : Nat) (code : Int) : List Proc → List Proc
  | [] => []
  | p :: ps =>
    if p.id = pid then { p with state := ProcessState.Zombie, exit_code := code } :: ps
    else p :: setZombieFirst pid code ps

/-- One step of the waiter wake-up loop: a process blocked in
`Waiting(Child(w))` with `w = pid` or `w = u64::MAX` becomes `Ready`. -/
def wakeOne (pid : Nat) (p : Proc) : Proc :=
  match p.state with
  | ProcessState.Waiting (WaitReason.Child w) =>
    if w = pid ∨ w = U64MAX then { p with state := ProcessState.Ready } else p
  | _ => p

/-- The full wake-up loop of the exit syscall (it visits every process,
with no break). -/
def wakeChildWaiters (pid : Nat) (procs : List Proc) : List Proc :=
  procs.map (wakeOne pid)

/-- Syscall 0 (`exit`) from `rust_syscall_handler` in `src/syscall.rs`:
validate the exit code, mark the caller Zombie with that code, wake every
process waiting on this child (or on any child), and clear
`CPU_DATA.current_process_id`. -/
def syscallExit (s : SysState) (arg1 : Nat) : Int × SysState :=
  let exit_code := toI32 arg1
  if exit_code < -255 ∨ exit_code > 255 then (-1, s)
  else
    let procs1 := setZombieFirst s.current_process_id exit_code s.procs
    let procs2 := wakeChildWaiters s.current_process_id procs1
    (0, { s with procs := procs2, current_process_id := 0 })

end Ruix

namespace Ruix

/-! ### Scheduler (`src/process/scheduler.rs`) -/

/-- Scheduler state: the process deque plus the bookkeeping fields. -/
structure SchedState where
  processes : List Proc
  process_tree : List (Nat × Nat)
  orphans : List Nat
  current_priority : Nat
deriving DecidableEq, Repr

/-- The selection test of `get_next_process_by_priority`:
`matches!(state, Ready | Running)`. -/
def canSchedule (p : Proc) : Bool :=
  match p.state with
  | ProcessState.Ready => true
  | ProcessState.Running => true
  | _ => false

/-- Embeds `Scheduler::get_next_process_by_priority`: despite its name it returns
the id of the first `Ready`/`Running` process in deque order. -/
def getNextByPriority (procs : List Proc) : Option Nat :=
  (procs.find? canSchedule).map Proc.id

/-- Embeds `VecDeque::remove` at the first position whose id matches:
returns the removed element and the remaining deque. -/
def removeFirstById (pid : Nat) : List Proc → Option (Proc × List Proc)
  | [] => none
  | p :: ps =>
    if p.id = pid then some (p, ps)
    else (removeFirstById pid ps).map (fun r => (r.1, p :: r.2))

/-- The `front_mut` update in `Scheduler::schedule` after the selected
process was removed: stamp the saved frame pointer into the (new) front
process and demote it from `Running` to `Ready`. -/
def stampFront (ctx : Nat) : List Proc → List Proc
  | [] => []
  | p :: ps =>
    let p1 := { p with context_ptr := ctx }
    let p2 := if p1.state = ProcessState.Running
              then { p1 with state := ProcessState.Ready } else p1
    p2 :: ps

/-- The round-robin fallback of `Scheduler::schedule`: rotate the deque
(stamping the outgoing front) and dispatch whatever is now at the front,
regardless of its state; an empty deque idles on the current context.
Returns (new scheduler, new `CPU_DATA.current_process_id`, returned
context pointer). -/
def scheduleFallback (sch : SchedState) (cur_ctx : Nat) : SchedState × Nat × Nat :=
  match sch.processes with
  | [] => (sch, 0, cur_ctx)
  | prev :: rest =>
    let prev1 := { prev with context_ptr := cur_ctx }
    match rest ++ [prev1] with
    | [] => (sch, 0, cur_ctx)
    | next :: tail =>
      ({ sch with processes := next :: tail }, next.id, next.context_ptr)

/-- Embeds `Scheduler::schedule` from `src/process/scheduler.rs`.  Returns the
updated scheduler, the process id installed into `CPU_DATA`, and the
context pointer handed back to the interrupt epilogue. -/
def schedule (sch : SchedState) (cur_ctx : Nat) : SchedState × Nat × Nat :=
  match getNextByPriority sch.processes with
  | some next_pid =>
    match removeFirstById next_pid sch.processes with
    | some (next, rest) =>
      let rest1 := stampFront cur_ctx rest
      let next1 := { next with state := ProcessState.Running }
      ({ sch with
         processes := next1 :: rest1
         current_priority := next.priority }, next.id, next.context_ptr)
    | none => scheduleFallback sch cur_ctx
  | none => scheduleFallback sch cur_ctx

/-! ### Children bookkeeping (`Process::add_child` / `Process::remove_child`) -/

/-- Embeds `Process::add_child`: reject when the children counter has reached
`max_processes`, otherwise push the pid and bump the counter. -/
def addChild (p : Proc) (child_pid : Nat) : Except Unit Proc :=
  if p.stats.children_count ≥ p.resource_limits.max_processes then Except.error ()
  else
    Except.ok
      { p with
        children := p.children ++ [child_pid]
        stats := { p.stats with children_count := p.stats.children_count + 1 } }

/-- Embeds `Process::remove_child`: drop the first occurrence of the pid and
decrement the counter with `saturating_sub`. -/
def removeChild (p : Proc) (child_pid : Nat) : Proc × Bool :=
  match p.children.findIdx? (fun id => id = child_pid) with
  | some pos =>
    ({ p with
       children := p.children.eraseIdx pos
       stats := { p.stats with children_count := p.stats.children_count - 1 } }, true)
  | none => (p, false)

/-- The `children_count = |children|` invariant from the spec. -/
def childrenInv (p : Proc) : Prop :=
  p.stats.children_count = p.children.length

end Ruix

namespace Ruix

/-! ### Watchdog timer (`src/timer.rs`) -/

/-- Embeds `TimeoutState` from `src/timer.rs`. -/
inductive TimeoutState where
  | Normal
  | Warning
  | TimedOut
deriving DecidableEq, Repr

/-- Embeds `ProcessTimeout` from `src/timer.rs`. -/
structure ProcessTimeout where
  pid : Nat
  start_time : Nat
  limit : Nat
  state : TimeoutState
  warning_sent : Bool
deriving DecidableEq, Repr

/-- Embeds `ProcessTimeout::reset`. -/
def ProcessTimeout.reset (t : ProcessTimeout) : ProcessTimeout :=
  { t with start_time := 0, state := TimeoutState.Normal, warning_sent := false }

/-- Embeds `ProcessTimeout::check_timeout`: returns the reported state and the
updated record.  Note the Warning branch sets only `warning_sent` — the
record's `state` field is left untouched. -/
def checkTimeout (t : ProcessTimeout) (current_tick : Nat) :
    TimeoutState × ProcessTimeout :=
  if t.state = TimeoutState.TimedOut then (TimeoutState.TimedOut, t)
  else
    let elapsed := current_tick - t.start_time
    let warning_threshold := t.limit / 2
    if elapsed ≥ t.limit then
      (TimeoutState.TimedOut, { t with state := TimeoutState.TimedOut })
    else if elapsed ≥ warning_threshold ∧ t.warning_sent = false then
      (TimeoutState.Warning, { t with warning_sent := true })
    else (TimeoutState.Normal, t)

/-- Embeds `TimeoutManager` from `src/timer.rs`. -/
structure TimeoutManager where
  processes : List ProcessTimeout
  current_tick : Nat
  user_mode_active : Bool
  current_user_pid : Nat
deriving DecidableEq, Repr

/-- Apply `f` to the first timeout record with the given pid
(`iter_mut().find(|p| p.pid == pid)`). -/
def updateFirstTimeout (pid : Nat) (f : ProcessTimeout → ProcessTimeout) :
    List ProcessTimeout → List ProcessTimeout
  | [] => []
  | t :: ts =>
    if t.pid = pid then f t :: ts else t :: updateFirstTimeout pid f ts

/-- Embeds `TimeoutManager::end_user_mode`: clear the user-mode flag, reset the
current pid's record and zero `current_user_pid`. -/
def endUserMode (m : TimeoutManager) : TimeoutManager :=
  { m with
    user_mode_active := false
    processes := updateFirstTimeout m.current_user_pid ProcessTimeout.reset m.processes
    current_user_pid := 0 }

/-- Embeds `TimeoutManager::kill_process`: mark the first scheduler process with
this pid Zombie with exit code `-1`, then wake every process waiting on it
(or on any child).  These are the same two loops the exit syscall runs. -/
def killProcess (procs : List Proc) (pid : Nat) : List Proc :=
  wakeChildWaiters pid (setZombieFirst pid (-1) procs)

/-- Embeds `TimeoutManager::handle_timeout`: kill the process and leave user
mode (which also resets the watchdog record). -/
def handleTimeout (m : TimeoutManager) (procs : List Proc) (pid : Nat) :
    TimeoutManager × List Proc :=
  (endUserMode m, killProcess procs pid)

/-- Run `check_timeout` on the first record with the given pid, returning
the reported state and the updated record list (none when no record
matches). -/
def checkFirstTimeout (pid tick : Nat) :
    List ProcessTimeout → Option (TimeoutState × List ProcessTimeout)
  | [] => none
  | t :: ts =>
    if t.pid = pid then
      let r := checkTimeout t tick
      some (r.1, r.2 :: ts)
    else (checkFirstTimeout pid tick ts).map (fun r => (r.1, t :: r.2))

/-- Embeds `TimeoutManager::check_timeouts` acting on the manager and the
scheduler's process list. -/
def checkTimeouts (m : TimeoutManager) (procs : List Proc) :
    TimeoutManager × List Proc :=
  match checkFirstTimeout m.current_user_pid m.current_tick m.processes with
  | none => (m, procs)
  | some (res, records) =>
    let m1 := { m with processes := records }
    match res with
    | TimeoutState.Warning => (m1, procs)
    | TimeoutState.TimedOut => handleTimeout m1 procs m.current_user_pid
    | TimeoutState.Normal => (m1, procs)

/-- Embeds `TimeoutManager::increment_tick`: advance the wrapping `u64` tick and,
while user mode is active, run the timeout check. -/
def incrementTick (m : TimeoutManager) (procs : List Proc) :
    TimeoutManager × List Proc :=
  let m1 := { m with current_tick := (m.current_tick + 1) % 2 ^ 64 }
  if m1.user_mode_active then checkTimeouts m1 procs else (m1, procs)

end Ruix

namespace Ruix

/-! ### IPC layer (`src/ipc.rs`) -/

/-- Embeds `IpcError`: the variants `src/ipc.rs` produces. -/
inductive IpcError where
  | ChannelNotFound
  | ChannelFull
  | InvalidSender
  | HandleNotFound
  | InvalidRange
  | AccessDenied
  | CircularTransfer
deriving DecidableEq, Repr

/-- Embeds `AccessRights` from `src/ipc.rs`. -/
inductive AccessRights where
  | ReadOnly
  | ReadWrite
  | Execute
  | None
deriving DecidableEq, Repr

/-- Embeds `TransferMode` from `src/ipc.rs`. -/
inductive TransferMode where
  | Ownership
  | Shared
  | Exclusive
deriving DecidableEq, Repr

/-- Embeds `PageRange` from `src/ipc.rs` (`start_addr` is a `VirtAddr`, `size` a
`usize`). -/
structure PageRange where
  start_addr : Nat
  size : Nat
deriving DecidableEq, Repr

/-- Embeds `PageRange::is_valid`: page alignment of both fields and non-empty. -/
def PageRange.is_valid (r : PageRange) : Bool :=
  r.start_addr % 4096 = 0 ∧ r.size % 4096 = 0 ∧ r.size > 0

/-- Embeds `PageRange::page_count` with the checked `size + 4095` (`usize`
overflow is an `InvalidRange` error). -/
def PageRange.page_count (r : PageRange) : Except IpcError Nat :=
  if r.size + 4095 ≥ 2 ^ 64 then Except.error IpcError.InvalidRange
  else Except.ok ((r.size + 4095) / 4096)

/-- Embeds `MemoryHandle` from `src/ipc.rs`. -/
structure MemoryHandle where
  id : Nat
  owner_pid : Nat
  holder_pid : Nat
  range : PageRange
  rights : AccessRights
  mode : TransferMode
  active : Bool
  is_mapped : Bool
  holder_virt_addr : Option Nat
deriving DecidableEq, Repr

/-- Embeds `MemoryHandle::new`: the holder starts as the owner, handles start
active and unmapped. -/
def MemoryHandle.new (id owner_pid : Nat) (range : PageRange)
    (rights : AccessRights) (mode : TransferMode) : MemoryHandle :=
  { id := id
    owner_pid := owner_pid
    holder_pid := owner_pid
    range := range
    rights := rights
    mode := mode
    active := true
    is_mapped := false
    holder_virt_addr := none }

/-- Embeds `MemoryHandle::revoke`. -/
def MemoryHandle.revokeH (h : MemoryHandle) : MemoryHandle :=
  { h with active := false, rights := AccessRights.None }

/-- Embeds `MemoryHandle::validate`. -/
def MemoryHandle.validate (h : MemoryHandle) : Bool :=
  h.active ∧ h.range.is_valid ∧ h.id ≠ 0

/-- Embeds `HandleRegistry` from `src/ipc.rs`, with the `NEXT_HANDLE_ID` global
counter threaded through the state. -/
structure HandleRegistry where
  handles : List MemoryHandle
  next_handle_id : Nat
deriving DecidableEq, Repr

/-- Apply `f` to the first handle with the given id (`get_handle_mut`). -/
def updateFirstHandle (handle_id : Nat) (f : MemoryHandle → MemoryHandle) :
    List MemoryHandle → List MemoryHandle
  | [] => []
  | h :: hs =>
    if h.id = handle_id then f h :: hs else h :: updateFirstHandle handle_id f hs

/-- Embeds `get_handle`: find the first handle with the given id. -/
def getHandle (reg : HandleRegistry) (handle_id : Nat) : Option MemoryHandle :=
  reg.handles.find? (fun h => h.id = handle_id)

/-- Embeds `HandleRegistry::create_handle`: validate the range, allocate an id
and append the new handle. -/
def create_handle (reg : HandleRegistry) (owner_pid : Nat) (range : PageRange)
    (rights : AccessRights) (mode : TransferMode) :
    Except IpcError (Nat × HandleRegistry) :=
  if range.is_valid = false then Except.error IpcError.InvalidRange
  else
    let handle_id := reg.next_handle_id
    let handle := MemoryHandle.new handle_id owner_pid range rights mode
    Except.ok (handle_id,
      { handles := reg.handles ++ [handle], next_handle_id := reg.next_handle_id + 1 })

/-- Embeds `syscalls::transfer_memory` from `src/ipc.rs` (the page-table work is
simulated in the source; the registry effect is `holder_pid := target`). -/
def transfer_memory (reg : HandleRegistry) (current_pid handle_id target_pid : Nat) :
    Except IpcError HandleRegistry :=
  if current_pid = target_pid then Except.error IpcError.CircularTransfer
  else
    match getHandle reg handle_id with
    | none => Except.error IpcError.HandleNotFound
    | some h =>
      if h.owner_pid ≠ current_pid then Except.error IpcError.AccessDenied
      else if h.validate = false then Except.error IpcError.InvalidRange
      else
        match h.range.page_count with
        | Except.error e => Except.error e
        | Except.ok _ =>
          Except.ok
            { reg with
              handles := updateFirstHandle handle_id
                (fun h0 => { h0 with holder_pid := target_pid }) reg.handles }

/-- Embeds `syscalls::receive_memory_handle` from `src/ipc.rs`: the holder
commits the (simulated) mapping and gets the range back. -/
def receive_memory_handle (reg : HandleRegistry) (current_pid handle_id : Nat) :
    Except IpcError (PageRange × HandleRegistry) :=
  match getHandle reg handle_id with
  | none => Except.error IpcError.HandleNotFound
  | some h =>
    if h.holder_pid ≠ current_pid then Except.error IpcError.AccessDenied
    else if h.validate = false then Except.error IpcError.InvalidRange
    else
      match h.range.page_count with
      | Except.error e => Except.error e
      | Except.ok _ =>
        Except.ok (h.range,
          { reg with
            handles := updateFirstHandle handle_id
              (fun h0 => { h0 with
                is_mapped := true
                holder_virt_addr := some h0.range.start_addr }) reg.handles })

/-- Embeds `syscalls::revoke_memory_handle` from `src/ipc.rs`: only the owner may
revoke; the handle is deactivated and, if it was mapped, the (simulated)
unmapping clears the mapping fields. -/
def revoke_memory_handle (reg : HandleRegistry) (current_pid handle_id : Nat) :
    Except IpcError HandleRegistry :=
  match getHandle reg handle_id with
  | none => Except.error IpcError.HandleNotFound
  | some h =>
    if h.owner_pid ≠ current_pid then Except.error IpcError.AccessDenied
    else
      let h1 := h.revokeH
      if h1.is_mapped then
        match h1.range.page_count with
        | Except.error e => Except.error e
        | Except.ok _ =>
          Except.ok
            { reg with
              handles := updateFirstHandle handle_id
                (fun _ => { h1 with is_mapped := false, holder_virt_addr := none })
                reg.handles }
      else
        Except.ok
          { reg with handles := updateFirstHandle handle_id (fun _ => h1) reg.handles }

/-- Embeds `HandleRegistry::cleanup_process_handles`: remove every handle owned
or held by the exiting pid (each is revoked just before removal, so the
net registry effect is removal). -/
def cleanup_process_handles (reg : HandleRegistry) (pid : Nat) : HandleRegistry :=
  { reg with
    handles := reg.handles.filter
      (fun h => ¬ (h.owner_pid = pid ∨ h.holder_pid = pid)) }

/-- The spec's per-handle invariant: an active handle has real rights and
a non-empty, page-aligned range. -/
def handleInv (h : MemoryHandle) : Prop :=
  h.active = true →
    (h.rights ≠ AccessRights.None ∧ h.range.size > 0 ∧
     h.range.start_addr % 4096 = 0 ∧ h.range.size % 4096 = 0)

/-- The invariant over a whole registry. -/
def registryInv (reg : HandleRegistry) : Prop :=
  ∀ h ∈ reg.handles, handleInv h

/-! ### Channels (`src/ipc.rs`) -/

/-- Embeds `MAX_QUEUE_SIZE` from `src/ipc.rs`. -/
def MAX_QUEUE_SIZE : Nat := 1000

/-- Embeds `Message` from `src/ipc.rs`: the `data` field is the fixed 256-byte
array, modelled as the list of its bytes. -/
structure Message where
  sender_pid : Nat
  msg_type : Nat
  data : List Nat
  data_len : Nat
deriving DecidableEq, Repr

/-- Embeds `Message::new`: copy at most 256 payload bytes into a zeroed array. -/
def Message.new (sender_pid msg_type : Nat) (payload : List Nat) : Message :=
  let len := min payload.length 256
  { sender_pid := sender_pid
    msg_type := msg_type
    data := payload.take 256 ++ List.replicate (256 - len) 0
    data_len := len }

/-- Embeds `Channel` from `src/ipc.rs`: two endpoints and one queue per
direction. -/
structure Channel where
  id : Nat
  endpoint1 : Nat
  endpoint2 : Nat
  queue1_to_2 : List Message
  queue2_to_1 : List Message
deriving DecidableEq, Repr

/-- Embeds `Channel::new`. -/
def Channel.new (id pid1 pid2 : Nat) : Channel :=
  { id := id, endpoint1 := pid1, endpoint2 := pid2,
    queue1_to_2 := [], queue2_to_1 := [] }

/-- Embeds `Channel::send`: an endpoint pushes onto the queue toward the other
endpoint, bounded by `MAX_QUEUE_SIZE`; anyone else is an invalid sender. -/
def Channel.send (c : Channel) (sender_pid : Nat) (message : Message) :
    Except IpcError Channel :=
  if sender_pid = c.endpoint1 then
    if c.queue1_to_2.length ≥ MAX_QUEUE_SIZE then Except.error IpcError.ChannelFull
    else Except.ok { c with queue1_to_2 := c.queue1_to_2 ++ [message] }
  else if sender_pid = c.endpoint2 then
    if c.queue2_to_1.length ≥ MAX_QUEUE_SIZE then Except.error IpcError.ChannelFull
    else Except.ok { c with queue2_to_1 := c.queue2_to_1 ++ [message] }
  else Except.error IpcError.InvalidSender

/-- Embeds `Channel::receive`: pop the oldest message queued toward the caller;
a non-endpoint gets `none`.  Returns the result together with the updated
channel. -/
def Channel.receive (c : Channel) (receiver_pid : Nat) : Option Message × Channel :=
  if receiver_pid = c.endpoint1 then
    match c.queue2_to_1 with
    | [] => (none, c)
    | m :: rest => (some m, { c with queue2_to_1 := rest })
  else if receiver_pid = c.endpoint2 then
    match c.queue1_to_2 with
    | [] => (none, c)
    | m :: rest => (some m, { c with queue1_to_2 := rest })
  else (none, c)

/-- Embeds `ChannelRegistry` from `src/ipc.rs`. -/
structure ChannelRegistry where
  channels : List Channel
  next_id : Nat
deriving DecidableEq, Repr

/-- Embeds `get_channel`: find the first channel with the given id. -/
def getChannel (reg : ChannelRegistry) (channel_id : Nat) : Option Channel :=
  reg.channels.find? (fun c => c.id = channel_id)

/-- Replace the first channel with the given id (`get_channel_mut`). -/
def updateFirstChannel (channel_id : Nat) (f : Channel → Channel) :
    List Channel → List Channel
  | [] => []
  | c :: cs =>
    if c.id = channel_id then f c :: cs else c :: updateFirstChannel channel_id f cs

/-- Embeds `syscalls::receive_message` from `src/ipc.rs`: look the channel up and
run `Channel::receive` in place. -/
def receive_message (reg : ChannelRegistry) (current_pid channel_id : Nat) :
    Except IpcError (Option Message × ChannelRegistry) :=
  match getChannel reg channel_id with
  | none => Except.error IpcError.ChannelNotFound
  | some c =>
    let r := c.receive current_pid
    Except.ok (r.1,
      { reg with channels := updateFirstChannel channel_id (fun _ => r.2) reg.channels })

/-- Syscall 4 (`receive_message`) from `rust_syscall_handler` in
`src/syscall.rs`: range-check the channel id, cap the buffer at 256
bytes, validate a non-null buffer pointer, then dispatch to
`receive_message`; `-2` encodes "no message", `-1` any error, otherwise
the number of bytes copied (`min(data_len, buffer_size)`). -/
def syscallReceive (reg : ChannelRegistry) (current_pid : Nat)
    (channel_id buffer_ptr buffer_size : Nat) : Int × ChannelRegistry :=
  if channel_id = 0 ∨ channel_id > 1000 then (-1, reg)
  else if buffer_size > 256 then (-1, reg)
  else if buffer_ptr ≠ 0 ∧ validates buffer_ptr buffer_size = false then (-1, reg)
  else
    match receive_message reg current_pid channel_id with
    | Except.ok (some message, reg') =>
      ((min message.data_len buffer_size : Nat), reg')
    | Except.ok (none, reg') => (-2, reg')
    | Except.error _ => (-1, reg)

/-- A burst of sends by one endpoint, failing as soon as one send fails. -/
def sendAll (c : Channel) (sender_pid : Nat) : List Message → Except IpcError Channel
  | [] => Except.ok c
  | m :: ms =>
    match c.send sender_pid m with
    | Except.ok c' => sendAll c' sender_pid ms
    | Except.error e => Except.error e

/-- Runs `k` successive receives by one process, collecting the messages in
order and stopping early on an empty queue. -/
def receiveSeq (c : Channel) (receiver_pid : Nat) : Nat → List Message × Channel
  | 0 => ([], c)
  | k + 1 =>
    match c.receive receiver_pid with
    | (some m, c') =>
      let r := receiveSeq c' receiver_pid k
      (m :: r.1, r.2)
    | (none, c') => ([], c')

end Ruix

namespace Ruix

/-! ### Concrete states used in counterexamples and witnesses -/

/-- A PCB with the given id and state and `Process::new`-style defaults
for the remaining fields. -/
def mkProc (id : Nat) (st : ProcessState) : Proc :=
  { id := id
    context_ptr := 0
    page_table_frame := 0
    state := st
    parent_id := 0
    children := []
    exit_code := 0
    priority := 10
    resource_limits := ResourceLimits.default
    stats := ProcessStats.default
    process_group_id := id
    session_id := id
    creation_time := 0 }

/-! ### General lemmas about the embedded operations -/

/-- When `find?` hits `p`, plus distinct ids makes the id-keyed removal in
`Scheduler::schedule` remove exactly `p`. -/
theorem removeFirstById_of_find? (l : List Proc) (p : Proc)
    (hfind : l.find? canSchedule = some p)
    (hnodup : (l.map Proc.id).Nodup) :
    ∃ rest, removeFirstById p.id l = some (p, rest) := by
  induction l with
  | nil => simp [List.find?] at hfind
  | cons q t ih =>
    rw [List.find?_cons] at hfind
    rcases hq : canSchedule q with _ | _
    · rw [hq] at hfind
      replace hfind : List.find? canSchedule t = some p := hfind
      rw [List.map_cons, List.nodup_cons] at hnodup
      have hmem : p ∈ t := List.mem_of_find?_eq_some hfind
      have hne : q.id ≠ p.id := by
        intro hcontra
        exact hnodup.1 (hcontra ▸ List.mem_map_of_mem Proc.id hmem)
      obtain ⟨rest, hrest⟩ := ih hfind hnodup.2
      refine ⟨q :: rest, ?_⟩
      simp [removeFirstById, hne, hrest]
    · rw [hq] at hfind
      replace hfind : some q = some p := hfind
      simp only [Option.some.injEq] at hfind
      subst hfind
      exact ⟨t, by simp [removeFirstById]⟩

/-- A schedulable process is not a Zombie. -/
theorem canSchedule_not_zombie (p : Proc) (h : canSchedule p = true) :
    p.state ≠ ProcessState.Zombie := by
  intro hz
  rw [canSchedule, hz] at h
  exact Bool.false_ne_true h

end Ruix

namespace Ruix

/-! ### C7: user-pointer validation boundaries -/

/-- C7 (confirmed).  For every buffer size `s` within the 4 KiB cap that
every syscall enforces before validating, `validate_user_pointer` accepts
`ptr` exactly when `ptr` lies in the user range and `ptr + s` neither
overflows nor exceeds `0x7FFFFFFF`; in particular the boundary pointers
`0x400000` and `0x7FFFFFFF - s` are accepted and one byte past either
boundary is rejected. -/
theorem c7_validate_user_pointer_exact (ptr size : Nat) (hs : size ≤ 0x1000) :
    (validates ptr size = true ↔ 0x400000 ≤ ptr ∧ ptr + size ≤ 0x7FFFFFFF) ∧
    validates 0x400000 size = true ∧
    validates (0x7FFFFFFF - size) size = true ∧
    validates 0x3FFFFF size = false ∧
    validates (0x7FFFFFFF - size + 1) size = false := by
  have key : ∀ q, validates q size = true ↔ 0x400000 ≤ q ∧ q + size ≤ 0x7FFFFFFF := by
    intro q
    unfold validates validate_user_pointer
    split_ifs with h1 h2 h3 h4 h5 <;> simp <;> omega
  have keyF : ∀ q, ¬ (0x400000 ≤ q ∧ q + size ≤ 0x7FFFFFFF) →
      validates q size = false := by
    intro q hq
    rcases hv : validates q size with _ | _
    · rfl
    · exact absurd ((key q).mp hv) hq
  refine ⟨key ptr, (key _).mpr (by omega), (key _).mpr (by omega),
    keyF _ (by omega), keyF _ (by omega)⟩

/-- Witness for C7 at `ptr = 0x400000`, `size = 4`. -/
theorem c7_witness : (4 ≤ 0x1000 ∧ validates 0x400000 4 = true) ∧
    validates 0x7FFFFFFB 4 = true ∧ validates 0x7FFFFFFC 4 = false :=
  ⟨⟨by decide, (c7_validate_user_pointer_exact 0x400000 4 (by decide)).2.1⟩,
   (c7_validate_user_pointer_exact 0x400000 4 (by decide)).2.2.1,
   (c7_validate_user_pointer_exact 0x400000 4 (by decide)).2.2.2.2⟩

/-! ### C1: the fork syscall -/

/-- A concrete saved context for the fork examples. -/
def c1_ctx : ProcessContext :=
  { r15 := 1, r14 := 2, r13 := 3, r12 := 4, rbp := 5, rbx := 6,
    r11 := 7, r10 := 8, r9 := 9, r8 := 10, rdi := 11, rsi := 12,
    rdx := 13, rcx := 14, rax := 15,
    rip := 0x401000, cs := 0x23, rflags := 0x202, rsp := 0x601000, ss := 0x1b }

/-- The parent process invoking fork in the C1 scenario. -/
def c1_parent : Proc := { mkProc 42 ProcessState.Running with parent_id := 1 }

/-- Kernel state at the C1 fork invocation: the caller (pid 42) is the
front process and `NEXT_PID` is 100. -/
def c1_s0 : SysState :=
  { procs := [c1_parent], next_pid := 100, current_process_id := 42 }

/-- C1 (code_bug).  Evaluating syscall 57 at a concrete state: the
handler allocates the fresh pid 100, records it in the parent's
`children` and returns it, but creates no child PCB at all — the process
table still has a single entry and no process has id 100 or parent 42.
`Process::fork`, which does build the claimed child (parent_id set,
context duplicated, child `rax = 0`, state Ready), is never invoked on
the syscall path. -/
theorem c1_fork_creates_no_child_pcb :
    (syscallFork c1_s0).1 = 100 ∧
    (syscallFork c1_s0).2.procs.length = 1 ∧
    ((syscallFork c1_s0).2.procs.map Proc.id) = [42] ∧
    ((syscallFork c1_s0).2.procs.head?.map Proc.children) = some [100] ∧
    (∀ p ∈ (syscallFork c1_s0).2.procs,
      p.id ≠ 100 ∧ p.parent_id ≠ 42 ∧ p.state ≠ ProcessState.Ready) ∧
    (Process.fork c1_parent c1_ctx 100 7 3).1.parent_id = 42 ∧
    (Process.fork c1_parent c1_ctx 100 7 3).1.state = ProcessState.Ready ∧
    (Process.fork c1_parent c1_ctx 100 7 3).2.rax = 0 ∧
    (Process.fork c1_parent c1_ctx 100 7 3).2.rip = c1_ctx.rip := by
  decide

/-! ### C2: no Zombie dispatch -/

/-- The Waiting process at the front of the C2 counterexample queue. -/
def c2_w : Proc := mkProc 8 (ProcessState.Waiting (WaitReason.Child 9))

/-- The Zombie process behind it. -/
def c2_z : Proc := { mkProc 9 ProcessState.Zombie with context_ptr := 555 }

/-- Scheduler state with no runnable process: one Waiting, one Zombie. -/
def c2_sch0 : SchedState :=
  { processes := [c2_w, c2_z], process_tree := [], orphans := [],
    current_priority := 10 }

/-- C2 counterexample.  With no Ready/Running process in the queue, the
round-robin fallback of `Scheduler::schedule` rotates the deque and
dispatches the new front regardless of state: here the Zombie (pid 9) is
selected — its id is installed as the current process and its saved
context pointer (555) is returned — contradicting the claim that a
Zombie is never dispatched. -/
theorem c2_counterexample :
    (schedule c2_sch0 777).2.1 = 9 ∧
    (schedule c2_sch0 777).2.2 = 555 ∧
    c2_z.id = 9 ∧ c2_z.context_ptr = 555 ∧
    c2_z.state = ProcessState.Zombie := by
  decide

/-- C2 (corrected).  Whenever the queue holds at least one Ready or
Running process (and ids are distinct), `schedule` dispatches the first
such process: its id is installed, its context pointer is returned, it is
re-queued at the front marked Running, and it is not a Zombie — so a
Zombie at the front is skipped.  Only the no-runnable fallback (see the
counterexample) can dispatch a Zombie. -/
theorem c2_schedule_skips_zombies (sch : SchedState) (cur_ctx : Nat) (p : Proc)
    (hfind : sch.processes.find? canSchedule = some p)
    (hnodup : (sch.processes.map Proc.id).Nodup) :
    (schedule sch cur_ctx).2.1 = p.id ∧
    (schedule sch cur_ctx).2.2 = p.context_ptr ∧
    (schedule sch cur_ctx).1.processes.head? =
      some { p with state := ProcessState.Running } ∧
    p.state ≠ ProcessState.Zombie := by
  obtain ⟨rest, hrem⟩ := removeFirstById_of_find? sch.processes p hfind hnodup
  have hnext : getNextByPriority sch.processes = some p.id := by
    rw [getNextByPriority, hfind, Option.map_some']
  have hcan : canSchedule p = true := List.find?_some hfind
  refine ⟨?_, ?_, ?_, canSchedule_not_zombie p hcan⟩ <;>
    simp [schedule, hnext, hrem]

/-- The Ready process dispatched in the C2 witness. -/
def c2w_r : Proc := { mkProc 3 ProcessState.Ready with context_ptr := 444 }

/-- A queue whose front is a Zombie and whose second entry is Ready. -/
def c2w_sch : SchedState :=
  { processes := [{ mkProc 2 ProcessState.Zombie with context_ptr := 333 }, c2w_r],
    process_tree := [], orphans := [], current_priority := 10 }

/-- Witness for C2: with a Zombie at the front and a Ready process behind
it, the Ready process (pid 3) is dispatched and the Zombie is skipped. -/
theorem c2_witness :
    (c2w_sch.processes.find? canSchedule = some c2w_r) ∧
    ((c2w_sch.processes.map Proc.id).Nodup) ∧
    (schedule c2w_sch 888).2.1 = 3 :=
  ⟨by decide, by decide,
   (c2_schedule_skips_zombies c2w_sch 888 c2w_r (by decide) (by decide)).1.trans
     (by decide)⟩

end Ruix

namespace Ruix

/-! ### C5: `children_count = |children|` -/

/-- An index returned by `findIdx?` (with start accumulator `j`) is below
`j` plus the list length. -/
theorem findIdx?_lt_add {α : Type} (pr : α → Bool) (l : List α) :
    ∀ j i, List.findIdx? pr l j = some i → i < j + l.length := by
  induction l with
  | nil => intro j i h; simp [List.findIdx?] at h
  | cons x t ih =>
    intro j i h
    rw [List.findIdx?_cons] at h
    split_ifs at h with hx
    · simp only [Option.some.injEq] at h
      simp [List.length_cons]
      omega
    · have := ih (j + 1) i h
      simp [List.length_cons]
      omega

/-- The process (pid 5) that forks in the C5 counterexample; its
`children` list and `children_count` agree (both empty/zero). -/
def c5_p : Proc := mkProc 5 ProcessState.Running

/-- Kernel state for the C5 counterexample. -/
def c5_s0 : SysState := { procs := [c5_p], next_pid := 8, current_process_id := 5 }

/-- C5 counterexample.  Syscall 57 appends the fresh pid to the parent's
`children` list with a bare `children.push` and never touches
`stats.children_count`: starting from `children = []`,
`children_count = 0`, one fork leaves the parent with one child recorded
but a counter of zero, so `children_count = |children|` fails right after
the operation. -/
theorem c5_counterexample :
    (syscallFork c5_s0).1 = 8 ∧
    ((syscallFork c5_s0).2.procs.map (fun q => q.children.length)) = [1] ∧
    ((syscallFork c5_s0).2.procs.map (fun q => q.stats.children_count)) = [0] := by
  decide

/-- C5 (corrected).  `Process::add_child` and `Process::remove_child` do
preserve `children_count = |children|`, but the fork syscall breaks it:
it extends the caller's `children` while leaving `children_count`
untouched, so immediately afterwards `|children| = children_count + 1`
for the caller. -/
theorem c5_children_count_where_maintained (p : Proc) (c : Nat)
    (hp : childrenInv p) :
    (∀ p', addChild p c = Except.ok p' → childrenInv p') ∧
    childrenInv (removeChild p c).1 ∧
    (∀ s rest, s.procs = p :: rest → p.id = s.current_process_id →
      (syscallFork s).2.procs =
        { p with children := p.children ++ [s.next_pid] } :: rest ∧
      (p.children ++ [s.next_pid]).length = p.stats.children_count + 1) := by
  refine ⟨?_, ?_, ?_⟩
  · intro p' hok
    rw [addChild] at hok
    split_ifs at hok with hlim
    simp only [Except.ok.injEq] at hok
    subst hok
    simp [childrenInv] at hp ⊢
    omega
  · rw [removeChild]
    cases hfi : p.children.findIdx? (fun id => id = c) with
    | none => simpa using hp
    | some i =>
      have hi : i < 0 + p.children.length := findIdx?_lt_add _ _ 0 i hfi
      simp only [childrenInv] at hp ⊢
      simp only [List.length_eraseIdx]
      rw [if_pos (by omega)]
      omega
  · intro s rest hs hid
    constructor
    · rw [syscallFork, hs]
      simp only [hid, if_pos rfl]
      rw [pushChildToFirst]
      simp [hid]
    · simp [childrenInv] at hp
      simp [hp]

/-- Witness for C5: the preserved part at a concrete process whose
counter and list agree. -/
theorem c5_witness :
    childrenInv (mkProc 4 ProcessState.Ready) ∧
    childrenInv (removeChild (mkProc 4 ProcessState.Ready) 9).1 :=
  ⟨rfl, (c5_children_count_where_maintained (mkProc 4 ProcessState.Ready) 9 rfl).2.1⟩

/-! ### C3: the exit syscall -/

/-- Marking the caller Zombie rewrites exactly the first PCB whose id
matches, provided no earlier PCB shares the id. -/
theorem setZombieFirst_append (pid : Nat) (code : Int) (pre : List Proc)
    (P : Proc) (post : List Proc)
    (hpre : ∀ r ∈ pre, r.id ≠ pid) (hP : P.id = pid) :
    setZombieFirst pid code (pre ++ P :: post) =
      pre ++ { P with state := ProcessState.Zombie, exit_code := code } :: post := by
  induction pre with
  | nil => simp [setZombieFirst, hP]
  | cons r t ih =>
    have hr : r.id ≠ pid := hpre r (List.mem_cons_self r t)
    have ih' := ih (fun x hx => hpre x (List.mem_cons_of_mem r hx))
    simp [setZombieFirst, hr, ih']

/-- Waking a waiter never changes its `parent_id`. -/
theorem wakeOne_parent_id (pid : Nat) (p : Proc) :
    (wakeOne pid p).parent_id = p.parent_id := by
  rw [wakeOne]
  split
  · split_ifs <;> rfl
  · rfl

/-- C3 (corrected).  The exit syscall validates the code (returning -1
with the state untouched otherwise), marks the caller Zombie with that
code, wakes every `Waiting(Child(w))` process with `w` = caller or ANY,
and clears the current pid — but it does **not** re-parent the caller's
children: every process's `parent_id` is exactly what it was before (the
re-parenting logic lives only in `Scheduler::handle_process_exit`, which
the syscall never calls). -/
theorem c3_exit_marks_zombie_no_reparent (s : SysState) (arg1 : Nat)
    (pre post : List Proc) (P : Proc)
    (hdecomp : s.procs = pre ++ P :: post)
    (hid : P.id = s.current_process_id)
    (hpre : ∀ r ∈ pre, r.id ≠ s.current_process_id) :
    (toI32 arg1 < -255 ∨ toI32 arg1 > 255 → syscallExit s arg1 = (-1, s)) ∧
    (-255 ≤ toI32 arg1 → toI32 arg1 ≤ 255 →
      syscallExit s arg1 =
        (0, { s with
              current_process_id := 0
              procs := pre.map (wakeOne s.current_process_id) ++
                { P with state := ProcessState.Zombie, exit_code := toI32 arg1 } ::
                post.map (wakeOne s.current_process_id) }) ∧
      (syscallExit s arg1).2.procs.map Proc.parent_id =
        s.procs.map Proc.parent_id) := by
  constructor
  · intro h
    rw [syscallExit, if_pos h]
  · intro h1 h2
    have hcond : ¬ (toI32 arg1 < -255 ∨ toI32 arg1 > 255) := by omega
    have hmark : wakeOne s.current_process_id
        { P with state := ProcessState.Zombie, exit_code := toI32 arg1 } =
        { P with state := ProcessState.Zombie, exit_code := toI32 arg1 } := rfl
    have heq : syscallExit s arg1 =
        (0, { s with
              current_process_id := 0
              procs := pre.map (wakeOne s.current_process_id) ++
                { P with state := ProcessState.Zombie, exit_code := toI32 arg1 } ::
                post.map (wakeOne s.current_process_id) }) := by
      rw [syscallExit]
      simp only [if_neg hcond]
      rw [hdecomp, setZombieFirst_append _ _ _ _ _ hpre hid,
        wakeChildWaiters, List.map_append, List.map_cons, hmark]
    refine ⟨heq, ?_⟩
    rw [heq, hdecomp]
    simp [List.map_map, Function.comp_def, wakeOne_parent_id]

/-- The exiting parent (pid 5) with one child recorded. -/
def c3_P : Proc :=
  { mkProc 5 ProcessState.Running with
    children := [7]
    stats := { ProcessStats.default with children_count := 1 } }

/-- Its child (pid 7), with `parent_id = 5`. -/
def c3_C : Proc := { mkProc 7 ProcessState.Ready with parent_id := 5 }

/-- Kernel state for the C3 scenario: parent (front, current) and child. -/
def c3_s0 : SysState := { procs := [c3_P, c3_C], next_pid := 8, current_process_id := 5 }

/-- C3 counterexample.  Process 5 (with child 7) calls `exit(0)`: the
syscall succeeds and the caller becomes a Zombie, but the child's
`parent_id` is still 5 — it was not re-parented to pid 0 as the claim
requires. -/
theorem c3_counterexample :
    (syscallExit c3_s0 0).1 = 0 ∧
    ((syscallExit c3_s0 0).2.procs.map Proc.state) =
      [ProcessState.Zombie, ProcessState.Ready] ∧
    ((syscallExit c3_s0 0).2.procs.map Proc.parent_id) = [0, 5] := by
  decide

/-- Witness for C3 at a concrete state: exiting with code 1 leaves every
`parent_id` unchanged. -/
theorem c3_witness :
    (syscallExit c3_s0 1).2.procs.map Proc.parent_id =
      c3_s0.procs.map Proc.parent_id :=
  ((c3_exit_marks_zombie_no_reparent c3_s0 1 [] [c3_C] c3_P rfl rfl
    (by simp)).2 (by decide) (by decide)).2

end Ruix

namespace Ruix

/-! ### C4: the watchdog -/

/-- Running the timeout check rewrites exactly the first record whose pid
matches, provided no earlier record shares the pid. -/
theorem checkFirstTimeout_append (pid tick : Nat) (tpre : List ProcessTimeout)
    (t : ProcessTimeout) (tpost : List ProcessTimeout)
    (htpre : ∀ r ∈ tpre, r.pid ≠ pid) (ht : t.pid = pid) :
    checkFirstTimeout pid tick (tpre ++ t :: tpost) =
      some ((checkTimeout t tick).1, tpre ++ (checkTimeout t tick).2 :: tpost) := by
  induction tpre with
  | nil => simp [checkFirstTimeout, ht]
  | cons r tl ih =>
    have hr : r.pid ≠ pid := htpre r (List.mem_cons_self r tl)
    have ih' := ih (fun x hx => htpre x (List.mem_cons_of_mem r hx))
    simp [checkFirstTimeout, hr, ih']

/-- The `end_user_mode` record reset rewrites exactly the first record
whose pid matches, provided no earlier record shares the pid. -/
theorem updateFirstTimeout_append (pid : Nat) (f : ProcessTimeout → ProcessTimeout)
    (tpre : List ProcessTimeout) (t : ProcessTimeout) (tpost : List ProcessTimeout)
    (htpre : ∀ r ∈ tpre, r.pid ≠ pid) (ht : t.pid = pid) :
    updateFirstTimeout pid f (tpre ++ t :: tpost) = tpre ++ f t :: tpost := by
  induction tpre with
  | nil => simp [updateFirstTimeout, ht]
  | cons r tl ih =>
    have hr : r.pid ≠ pid := htpre r (List.mem_cons_self r tl)
    have ih' := ih (fun x hx => htpre x (List.mem_cons_of_mem r hx))
    simp [updateFirstTimeout, hr, ih']

/-- C4 (corrected).  One watchdog tick for the active user process with
record `t`.  Warning branch: when `limit/2 ≤ elapsed < limit` and no
warning was sent, the tick sets `warning_sent` — but the record's `state`
field is left exactly as it was (it does **not** become `Warning`).
Timeout branch: when `elapsed ≥ limit`, the process is marked Zombie with
exit code -1, matching waiters are woken and user-mode-active is cleared —
but the record does not remain `TimedOut`: `end_user_mode` immediately
resets it to `(start_time 0, Normal, warning_sent false)`. -/
theorem c4_watchdog_tick (m : TimeoutManager) (procs : List Proc)
    (tpre : List ProcessTimeout) (t : ProcessTimeout) (tpost : List ProcessTimeout)
    (hact : m.user_mode_active = true)
    (hdecomp : m.processes = tpre ++ t :: tpost)
    (htpre : ∀ r ∈ tpre, r.pid ≠ m.current_user_pid)
    (htpid : t.pid = m.current_user_pid)
    (hnotTO : t.state ≠ TimeoutState.TimedOut) :
    ((m.current_tick + 1) % 2 ^ 64 - t.start_time < t.limit →
      (m.current_tick + 1) % 2 ^ 64 - t.start_time ≥ t.limit / 2 →
      t.warning_sent = false →
      incrementTick m procs =
        ({ m with
           current_tick := (m.current_tick + 1) % 2 ^ 64
           processes := tpre ++ { t with warning_sent := true } :: tpost }, procs) ∧
      ({ t with warning_sent := true } : ProcessTimeout).state = t.state) ∧
    ((m.current_tick + 1) % 2 ^ 64 - t.start_time ≥ t.limit →
      ∀ qpre Q qpost, procs = qpre ++ Q :: qpost → Q.id = m.current_user_pid →
        (∀ r ∈ qpre, r.id ≠ m.current_user_pid) →
        incrementTick m procs =
          ({ processes := tpre ++
               { t with start_time := 0, state := TimeoutState.Normal,
                        warning_sent := false } :: tpost
             current_tick := (m.current_tick + 1) % 2 ^ 64
             user_mode_active := false
             current_user_pid := 0 },
           qpre.map (wakeOne m.current_user_pid) ++
             { Q with state := ProcessState.Zombie, exit_code := -1 } ::
             qpost.map (wakeOne m.current_user_pid))) := by
  have hm1 : incrementTick m procs =
      checkTimeouts { m with current_tick := (m.current_tick + 1) % 2 ^ 64 } procs := by
    rw [incrementTick]
    simp only [hact, if_pos]
  constructor
  · intro hlt hge hws
    have hct : checkTimeout t ((m.current_tick + 1) % 2 ^ 64) =
        (TimeoutState.Warning, { t with warning_sent := true }) := by
      rw [checkTimeout, if_neg hnotTO, if_neg (by omega), if_pos ⟨hge, hws⟩]
    have hcf := checkFirstTimeout_append m.current_user_pid
      ((m.current_tick + 1) % 2 ^ 64) tpre t tpost htpre htpid
    rw [hct] at hcf
    refine ⟨?_, rfl⟩
    rw [hm1, checkTimeouts]
    simp only [hdecomp]
    rw [hcf]
  · intro hto qpre Q qpost hq hQid hqpre
    have hct : checkTimeout t ((m.current_tick + 1) % 2 ^ 64) =
        (TimeoutState.TimedOut, { t with state := TimeoutState.TimedOut }) := by
      rw [checkTimeout, if_neg hnotTO, if_pos hto]
    have hcf := checkFirstTimeout_append m.current_user_pid
      ((m.current_tick + 1) % 2 ^ 64) tpre t tpost htpre htpid
    rw [hct] at hcf
    have hupd := updateFirstTimeout_append m.current_user_pid
      ProcessTimeout.reset tpre { t with state := TimeoutState.TimedOut } tpost
      htpre htpid
    have hkill : killProcess procs m.current_user_pid =
        qpre.map (wakeOne m.current_user_pid) ++
          { Q with state := ProcessState.Zombie, exit_code := -1 } ::
          qpost.map (wakeOne m.current_user_pid) := by
      rw [killProcess, hq, setZombieFirst_append _ _ _ _ _ hqpre hQid,
        wakeChildWaiters, List.map_append, List.map_cons]
      rfl
    rw [hm1, checkTimeouts]
    simp only [hdecomp]
    rw [hcf]
    simp only [handleTimeout, endUserMode, hupd, hkill, ProcessTimeout.reset]

/-- The watchdog record of pid 2 in the C4 scenario: limit 10 ticks,
started at tick 0. -/
def c4_t0 : ProcessTimeout :=
  { pid := 2, start_time := 0, limit := 10, state := TimeoutState.Normal,
    warning_sent := false }

/-- Timeout manager at tick 4 with pid 2 active in user mode. -/
def c4_m0 : TimeoutManager :=
  { processes := [c4_t0], current_tick := 4, user_mode_active := true,
    current_user_pid := 2 }

/-- The scheduler processes for the C4 scenario. -/
def c4_procs : List Proc := [mkProc 2 ProcessState.Running]

/-- C4 counterexample.  At the first tick where `elapsed ≥ limit/2`
(tick 5, elapsed 5, limit 10), the warning fires and `warning_sent` is
set, but the record's `state` stays `Normal` — `check_timeout` only
*returns* `Warning` and never assigns it to `self.state`, contradicting
the claim that the record's state becomes `Warning`. -/
theorem c4_counterexample :
    (incrementTick c4_m0 c4_procs).1.current_tick = 5 ∧
    (incrementTick c4_m0 c4_procs).1.processes =
      [{ pid := 2, start_time := 0, limit := 10, state := TimeoutState.Normal,
         warning_sent := true }] := by
  decide

/-- Witness for C4 at the concrete warning scenario (tick 4 → 5,
limit 10): the tick sets only the warning flag. -/
theorem c4_witness :
    incrementTick c4_m0 c4_procs =
      ({ processes := [{ pid := 2, start_time := 0, limit := 10,
                         state := TimeoutState.Normal, warning_sent := true }],
         current_tick := 5, user_mode_active := true, current_user_pid := 2 },
       c4_procs) :=
  (((c4_watchdog_tick c4_m0 c4_procs [] c4_t0 [] rfl rfl (by simp) rfl
      (by decide)).1 (by decide) (by decide) (by decide)).1).trans (by decide)

end Ruix

namespace Ruix

/-! ### C6: memory-handle invariants -/

/-- A member of the updated handle list comes from the original list,
either untouched or through `f`. -/
theorem mem_updateFirstHandle (hid : Nat) (f : MemoryHandle → MemoryHandle)
    (l : List MemoryHandle) (x : MemoryHandle)
    (hx : x ∈ updateFirstHandle hid f l) :
    x ∈ l ∨ ∃ h ∈ l, x = f h := by
  induction l with
  | nil => simp [updateFirstHandle] at hx
  | cons h hs ih =>
    rw [updateFirstHandle] at hx
    split_ifs at hx with hh
    · rcases List.mem_cons.mp hx with h1 | h2
      · exact Or.inr ⟨h, List.mem_cons_self h hs, h1⟩
      · exact Or.inl (List.mem_cons_of_mem h h2)
    · rcases List.mem_cons.mp hx with h1 | h2
      · exact Or.inl (h1 ▸ List.mem_cons_self h hs)
      · rcases ih h2 with ha | ⟨y, hy, hxy⟩
        · exact Or.inl (List.mem_cons_of_mem h ha)
        · exact Or.inr ⟨y, List.mem_cons_of_mem h hy, hxy⟩

/-- A field update that touches neither `active`, `rights` nor `range`
preserves the per-handle invariant. -/
theorem handleInv_of_same_fields (x y : MemoryHandle)
    (ha : x.active = y.active) (hr : x.rights = y.rights)
    (hg : x.range = y.range) (hy : handleInv y) : handleInv x := by
  intro hact
  rw [ha] at hact
  rw [hr, hg]
  exact hy hact

/-- C6 (corrected).  Starting from a registry in which every active
handle has real rights and a non-empty page-aligned range, every registry
operation preserves that invariant — except that `create_handle` must be
handed `rights ≠ None` to establish it, because it performs no rights
check of its own (see the counterexample). -/
theorem c6_handle_invariant (reg : HandleRegistry) (hreg : registryInv reg) :
    (∀ owner range rights mode hid reg2,
      rights ≠ AccessRights.None →
      create_handle reg owner range rights mode = Except.ok (hid, reg2) →
      registryInv reg2) ∧
    (∀ cur hid target reg2,
      transfer_memory reg cur hid target = Except.ok reg2 → registryInv reg2) ∧
    (∀ cur hid rng reg2,
      receive_memory_handle reg cur hid = Except.ok (rng, reg2) → registryInv reg2) ∧
    (∀ cur hid reg2,
      revoke_memory_handle reg cur hid = Except.ok reg2 → registryInv reg2) ∧
    (∀ pid, registryInv (cleanup_process_handles reg pid)) := by
  refine ⟨?_, ?_, ?_, ?_, ?_⟩
  · intro owner range rights mode hid reg2 hrights hok
    rw [create_handle] at hok
    split_ifs at hok with hval
    simp only [Except.ok.injEq, Prod.mk.injEq] at hok
    obtain ⟨hnid, hreg2⟩ := hok
    subst hreg2
    intro x hx
    rcases List.mem_append.mp hx with hmem | hnew
    · exact hreg x hmem
    · rw [List.mem_singleton] at hnew
      subst hnew
      intro _
      have hv : range.is_valid = true := by
        cases hb : range.is_valid
        · exact absurd hb hval
        · rfl
      simp only [PageRange.is_valid, decide_eq_true_eq, Bool.decide_and,
        Bool.and_eq_true] at hv
      refine ⟨hrights, ?_, ?_, ?_⟩ <;>
        simp_all [MemoryHandle.new]
  · intro cur hid target reg2 hok
    rw [transfer_memory] at hok
    split_ifs at hok with hcirc
    cases hg : getHandle reg hid with
    | none => simp [hg] at hok
    | some h =>
      simp only [hg] at hok
      split_ifs at hok with hown hval
      cases hpc : h.range.page_count with
      | error e => simp [hpc] at hok
      | ok n =>
        simp only [hpc] at hok
        simp only [Except.ok.injEq] at hok
        subst hok
        intro x hx
        rcases mem_updateFirstHandle _ _ _ _ hx with hmem | ⟨y, hy, hxy⟩
        · exact hreg x hmem
        · subst hxy
          exact handleInv_of_same_fields _ y rfl rfl rfl (hreg y hy)
  · intro cur hid rng reg2 hok
    rw [receive_memory_handle] at hok
    cases hg : getHandle reg hid with
    | none => simp [hg] at hok
    | some h =>
      simp only [hg] at hok
      split_ifs at hok with hhold hval
      cases hpc : h.range.page_count with
      | error e => simp [hpc] at hok
      | ok n =>
        simp only [hpc] at hok
        simp only [Except.ok.injEq, Prod.mk.injEq] at hok
        obtain ⟨hrng, hreg2⟩ := hok
        subst hreg2
        intro x hx
        rcases mem_updateFirstHandle _ _ _ _ hx with hmem | ⟨y, hy, hxy⟩
        · exact hreg x hmem
        · subst hxy
          exact handleInv_of_same_fields _ y rfl rfl rfl (hreg y hy)
  · intro cur hid reg2 hok
    rw [revoke_memory_handle] at hok
    cases hg : getHandle reg hid with
    | none => simp [hg] at hok
    | some h =>
      simp only [hg] at hok
      split_ifs at hok with hown hmap
      · cases hpc : (MemoryHandle.revokeH h).range.page_count with
        | error e => simp [hpc] at hok
        | ok n =>
          simp only [hpc] at hok
          simp only [Except.ok.injEq] at hok
          subst hok
          intro x hx
          rcases mem_updateFirstHandle _ _ _ _ hx with hmem | ⟨y, hy, hxy⟩
          · exact hreg x hmem
          · subst hxy
            intro hact
            exact absurd hact (by simp [MemoryHandle.revokeH])
      · simp only [Except.ok.injEq] at hok
        subst hok
        intro x hx
        rcases mem_updateFirstHandle _ _ _ _ hx with hmem | ⟨y, hy, hxy⟩
        · exact hreg x hmem
        · subst hxy
          intro hact
          exact absurd hact (by simp [MemoryHandle.revokeH])
  · intro pid x hx
    exact hreg x (List.mem_of_mem_filter hx)

/-- The empty handle registry. -/
def c6_reg0 : HandleRegistry := { handles := [], next_handle_id := 1 }

/-- The handle created with `rights = None` in the C6 counterexample. -/
def c6_h0 : MemoryHandle :=
  MemoryHandle.new 1 1 { start_addr := 4096, size := 4096 }
    AccessRights.None TransferMode.Shared

/-- C6 counterexample.  `create_handle` checks only the range: passing a
perfectly aligned non-empty range together with `rights = None` succeeds
and registers a handle with `active = true` and `rights = None`, so the
claimed invariant `active ⇒ rights ≠ None` is violated right after a
registry operation. -/
theorem c6_counterexample :
    create_handle c6_reg0 1 { start_addr := 4096, size := 4096 }
        AccessRights.None TransferMode.Shared =
      Except.ok (1, { handles := [c6_h0], next_handle_id := 2 }) ∧
    c6_h0.active = true ∧ c6_h0.rights = AccessRights.None :=
  ⟨rfl, rfl, rfl⟩

/-- Witness for C6: creating a ReadWrite handle over an aligned 8 KiB
range in the empty registry yields a registry satisfying the invariant. -/
theorem c6_witness :
    registryInv c6_reg0 ∧
    registryInv { handles := [MemoryHandle.new 1 7 { start_addr := 4096, size := 8192 }
        AccessRights.ReadWrite TransferMode.Ownership], next_handle_id := 2 } := by
  have hinv : registryInv c6_reg0 := by
    intro h hh
    simp [c6_reg0] at hh
  refine ⟨hinv, ?_⟩
  exact (c6_handle_invariant c6_reg0 hinv).1 7 { start_addr := 4096, size := 8192 }
    AccessRights.ReadWrite TransferMode.Ownership 1 _ (by decide) rfl

end Ruix

namespace Ruix

/-! ### Shared lemmas about receive_message and the receive syscall -/

/-- Replacing the first matching channel by itself is a no-op. -/
theorem updateFirstChannel_self (cid : Nat) (c : Channel) :
    ∀ l : List Channel, l.find? (fun x => x.id = cid) = some c →
    updateFirstChannel cid (fun _ => c) l = l := by
  intro l
  induction l with
  | nil => intro h; simp at h
  | cons x xs ih =>
    intro h
    by_cases hxc : x.id = cid
    · have hx : c = x := by
        rw [List.find?_cons] at h
        simp [hxc] at h
        exact h.symm
      simp [updateFirstChannel, hxc, hx]
    · rw [List.find?_cons] at h
      have hb : (decide (x.id = cid)) = false := by simp [hxc]
      rw [hb] at h
      replace h : xs.find? (fun x => x.id = cid) = some c := h
      simp [updateFirstChannel, hxc, ih h]

/-- With all argument guards satisfied, the receive syscall is exactly
the dispatch on `receive_message`. -/
theorem syscallReceive_guards_pass (reg : ChannelRegistry) (cur cid bptr bsz : Nat)
    (hid0 : cid ≠ 0) (hid1 : cid ≤ 1000) (hbsz : bsz ≤ 256)
    (hbp : bptr = 0 ∨ validates bptr bsz = true) :
    syscallReceive reg cur cid bptr bsz =
      match receive_message reg cur cid with
      | Except.ok (some message, reg') => ((min message.data_len bsz : Nat), reg')
      | Except.ok (none, reg') => (-2, reg')
      | Except.error _ => (-1, reg) := by
  have hg1 : ¬ (cid = 0 ∨ cid > 1000) := by omega
  have hg2 : ¬ (bsz > 256) := by omega
  have hg3 : ¬ (bptr ≠ 0 ∧ validates bptr bsz = false) := by
    rcases hbp with h | h
    · exact fun hc => hc.1 h
    · intro hc
      rw [h] at hc
      exact Bool.noConfusion hc.2
  rw [syscallReceive, if_neg hg1, if_neg hg2, if_neg hg3]

/-- Evaluating `receive_message` on a found channel runs `Channel::receive` in
place. -/
theorem receive_message_eq (reg : ChannelRegistry) (cur cid : Nat) (c : Channel)
    (hreg : getChannel reg cid = some c) :
    receive_message reg cur cid =
      Except.ok ((c.receive cur).1,
        { reg with channels :=
            updateFirstChannel cid (fun _ => (c.receive cur).2) reg.channels }) := by
  rw [receive_message, hreg]

/-- When `Channel::receive` leaves the channel unchanged, so is the
registry. -/
theorem receive_message_unchanged (reg : ChannelRegistry) (cur cid : Nat)
    (c : Channel) (hreg : getChannel reg cid = some c)
    (hsame : (c.receive cur).2 = c) :
    receive_message reg cur cid = Except.ok ((c.receive cur).1, reg) := by
  rw [receive_message_eq reg cur cid c hreg, hsame,
    updateFirstChannel_self cid c reg.channels hreg]

/-! ### C8: receive_message return codes -/

/-- C8 (corrected).  With in-range arguments (`1 ≤ channel_id ≤ 1000`,
`buffer_size ≤ 256`, buffer pointer null or validating), the receive
syscall returns -1 when no channel with that id exists, -2 when the
caller's incoming queue on the found channel is empty, and otherwise the
number of bytes copied from the oldest queued message
(`min(data_len, buffer_size)`).  The id-range guard means an *existing*
channel with id > 1000 yields -1, not -2 (see the counterexample). -/
theorem c8_receive_return_codes (reg : ChannelRegistry) (cur cid bptr bsz : Nat)
    (hid0 : cid ≠ 0) (hid1 : cid ≤ 1000) (hbsz : bsz ≤ 256)
    (hbp : bptr = 0 ∨ validates bptr bsz = true) :
    (getChannel reg cid = none → syscallReceive reg cur cid bptr bsz = (-1, reg)) ∧
    (∀ c, getChannel reg cid = some c →
      ((cur = c.endpoint1 ∧ c.queue2_to_1 = [] ∨
        cur ≠ c.endpoint1 ∧ cur = c.endpoint2 ∧ c.queue1_to_2 = []) →
        syscallReceive reg cur cid bptr bsz = (-2, reg)) ∧
      (∀ m rest,
        (cur = c.endpoint1 ∧ c.queue2_to_1 = m :: rest ∨
         cur ≠ c.endpoint1 ∧ cur = c.endpoint2 ∧ c.queue1_to_2 = m :: rest) →
        (syscallReceive reg cur cid bptr bsz).1 = (min m.data_len bsz : Nat))) := by
  have hsys := syscallReceive_guards_pass reg cur cid bptr bsz hid0 hid1 hbsz hbp
  constructor
  · intro hnone
    rw [hsys, receive_message, hnone]
  · intro c hc
    constructor
    · intro hempty
      have hrecv : c.receive cur = (none, c) := by
        rcases hempty with ⟨he, hq⟩ | ⟨hne, he, hq⟩
        · rw [Channel.receive, if_pos he, hq]
        · rw [Channel.receive, if_neg hne, if_pos he, hq]
      rw [hsys, receive_message_unchanged reg cur cid c hc (by rw [hrecv]), hrecv]
    · intro m rest hfull
      rcases hfull with ⟨he, hq⟩ | ⟨hne, he, hq⟩
      · have hrecv : c.receive cur =
            (some m, { c with queue2_to_1 := rest }) := by
          rw [Channel.receive, if_pos he, hq]
        rw [hsys, receive_message_eq reg cur cid c hc, hrecv]
      · have hrecv : c.receive cur =
            (some m, { c with queue1_to_2 := rest }) := by
          rw [Channel.receive, if_neg hne, if_pos he, hq]
        rw [hsys, receive_message_eq reg cur cid c hc, hrecv]

/-- Registry holding an existing channel whose id (1001) is past the
syscall's range guard. -/
def c8_reg0 : ChannelRegistry := { channels := [Channel.new 1001 2 3], next_id := 1002 }

/-- C8 counterexample.  Process 2 is an endpoint of the *existing*
channel 1001 and its incoming queue is empty, yet the receive syscall
returns -1, not -2: the id-range guard (`channel_id > 1000`) rejects the
call before the channel is even looked up. -/
theorem c8_counterexample :
    getChannel c8_reg0 1001 = some (Channel.new 1001 2 3) ∧
    (Channel.new 1001 2 3).endpoint1 = 2 ∧
    (Channel.new 1001 2 3).queue2_to_1 = [] ∧
    syscallReceive c8_reg0 2 1001 0 0 = (-1, c8_reg0) := by
  decide

/-- Channel 5 between processes 2 and 3 for the C8 witness. -/
def c8w_reg : ChannelRegistry := { channels := [Channel.new 5 2 3], next_id := 6 }

/-- Witness for C8: an in-range empty channel yields -2 and leaves the
registry unchanged. -/
theorem c8_witness : syscallReceive c8w_reg 2 5 0 0 = (-2, c8w_reg) :=
  ((c8_receive_return_codes c8w_reg 2 5 0 0 (by decide) (by decide) (by decide)
      (Or.inl rfl)).2 (Channel.new 5 2 3) (by decide)).1 (Or.inl ⟨rfl, rfl⟩)

end Ruix

namespace Ruix

/-! ### C9: per-direction FIFO delivery -/

/-- A successful burst of sends by endpoint 1 appends the messages, in
order, to the 1→2 queue and changes nothing else. -/
theorem sendAll_by_endpoint1 (ms : List Message) :
    ∀ c c' : Channel, sendAll c c.endpoint1 ms = Except.ok c' →
      c'.endpoint1 = c.endpoint1 ∧ c'.endpoint2 = c.endpoint2 ∧
      c'.queue1_to_2 = c.queue1_to_2 ++ ms ∧ c'.queue2_to_1 = c.queue2_to_1 := by
  induction ms with
  | nil =>
    intro c c' h
    rw [sendAll] at h
    simp only [Except.ok.injEq] at h
    subst h
    simp
  | cons m tl ih =>
    intro c c' h
    rw [sendAll, Channel.send, if_pos rfl] at h
    split_ifs at h with hfull
    replace h : sendAll { c with queue1_to_2 := c.queue1_to_2 ++ [m] }
        c.endpoint1 tl = Except.ok c' := h
    obtain ⟨h1, h2, h3, h4⟩ := ih { c with queue1_to_2 := c.queue1_to_2 ++ [m] } c' h
    refine ⟨h1, h2, ?_, h4⟩
    rw [h3]
    simp

/-- A successful burst of sends by endpoint 2 (when the endpoints
differ) appends the messages, in order, to the 2→1 queue. -/
theorem sendAll_by_endpoint2 (ms : List Message) :
    ∀ c c' : Channel, c.endpoint2 ≠ c.endpoint1 →
      sendAll c c.endpoint2 ms = Except.ok c' →
      c'.endpoint1 = c.endpoint1 ∧ c'.endpoint2 = c.endpoint2 ∧
      c'.queue2_to_1 = c.queue2_to_1 ++ ms ∧ c'.queue1_to_2 = c.queue1_to_2 := by
  induction ms with
  | nil =>
    intro c c' _ h
    rw [sendAll] at h
    simp only [Except.ok.injEq] at h
    subst h
    simp
  | cons m tl ih =>
    intro c c' hne h
    rw [sendAll, Channel.send, if_neg hne, if_pos rfl] at h
    split_ifs at h with hfull
    replace h : sendAll { c with queue2_to_1 := c.queue2_to_1 ++ [m] }
        c.endpoint2 tl = Except.ok c' := h
    obtain ⟨h1, h2, h3, h4⟩ := ih { c with queue2_to_1 := c.queue2_to_1 ++ [m] } c' hne h
    refine ⟨h1, h2, ?_, h4⟩
    rw [h3]
    simp

/-- Endpoint 2 drains the 1→2 queue in order. -/
theorem receiveSeq_drains_q12 :
    ∀ (q : List Message) (c : Channel), c.queue1_to_2 = q →
      c.endpoint2 ≠ c.endpoint1 →
      (receiveSeq c c.endpoint2 q.length).1 = q := by
  intro q
  induction q with
  | nil => intro c _ _; rfl
  | cons m tl ih =>
    intro c hq hne
    rw [List.length_cons, receiveSeq, Channel.receive, if_neg hne, if_pos rfl, hq]
    simp only
    have := ih { c with queue1_to_2 := tl } rfl hne
    rw [this]

/-- Endpoint 1 drains the 2→1 queue in order. -/
theorem receiveSeq_drains_q21 :
    ∀ (q : List Message) (c : Channel), c.queue2_to_1 = q →
      (receiveSeq c c.endpoint1 q.length).1 = q := by
  intro q
  induction q with
  | nil => intro c _; rfl
  | cons m tl ih =>
    intro c hq
    rw [List.length_cons, receiveSeq, Channel.receive, if_pos rfl, hq]
    simp only
    have := ih { c with queue2_to_1 := tl } rfl
    rw [this]

/-- C9 (confirmed).  On a channel with distinct endpoints, after a burst
of successful sends `m1..mk` by one endpoint into an initially empty
direction, the `k` successive receives by the other endpoint return
exactly `m1..mk` in that order — the very same `Message` records, so
`sender_pid`, `msg_type`, `data_len` and the payload bytes are all
preserved. -/
theorem c9_fifo_order (c : Channel) (s r : Nat) (ms : List Message) (c' : Channel)
    (hne : c.endpoint1 ≠ c.endpoint2)
    (hdir : (s = c.endpoint1 ∧ r = c.endpoint2 ∧ c.queue1_to_2 = []) ∨
            (s = c.endpoint2 ∧ r = c.endpoint1 ∧ c.queue2_to_1 = []))
    (hsend : sendAll c s ms = Except.ok c') :
    (receiveSeq c' r ms.length).1 = ms := by
  rcases hdir with ⟨hs, hr, hq⟩ | ⟨hs, hr, hq⟩
  · subst hs
    subst hr
    obtain ⟨he1, he2, hq12, _⟩ := sendAll_by_endpoint1 ms c c' hsend
    have hq' : c'.queue1_to_2 = ms := by
      rw [hq12, hq]
      simp
    have hne' : c'.endpoint2 ≠ c'.endpoint1 := by
      rw [he1, he2]
      exact fun hh => hne hh.symm
    rw [← he2]
    exact receiveSeq_drains_q12 ms c' hq' hne'
  · subst hs
    subst hr
    obtain ⟨he1, he2, hq21, _⟩ :=
      sendAll_by_endpoint2 ms c c' (fun hh => hne hh.symm) hsend
    have hq' : c'.queue2_to_1 = ms := by
      rw [hq21, hq]
      simp
    rw [← he1]
    exact receiveSeq_drains_q21 ms c' hq'

/-- First message of the C9 witness ping-pong. -/
def c9_m1 : Message := { sender_pid := 2, msg_type := 7, data := [1, 2, 3], data_len := 3 }

/-- Second message of the C9 witness. -/
def c9_m2 : Message := { sender_pid := 2, msg_type := 8, data := [4], data_len := 1 }

/-- Fresh channel between processes 2 and 3 for the C9 witness. -/
def c9_ch : Channel := Channel.new 1 2 3

/-- Witness for C9: process 2 sends two messages, process 3 receives
them back in order. -/
theorem c9_witness :
    sendAll c9_ch 2 [c9_m1, c9_m2] =
      Except.ok { c9_ch with queue1_to_2 := [c9_m1, c9_m2] } ∧
    (receiveSeq { c9_ch with queue1_to_2 := [c9_m1, c9_m2] } 3 2).1 = [c9_m1, c9_m2] :=
  ⟨rfl,
   c9_fifo_order c9_ch 2 3 [c9_m1, c9_m2] _ (by decide)
     (Or.inl ⟨rfl, rfl, rfl⟩) rfl⟩

/-! ### C10: receive by a non-endpoint -/

/-- C10 (confirmed).  A receive by any process `q` that is not one of the
channel's two endpoints returns `None` and leaves the channel — both
queues — exactly as it was; through the syscall the `None` surfaces as
-2 (the would-block code, not a permission error) and the registry is
unchanged, so a non-endpoint can never dequeue a message belonging to
the endpoints. -/
theorem c10_nonendpoint_receive (c : Channel) (q : Nat) (reg : ChannelRegistry)
    (bptr bsz : Nat)
    (h1 : q ≠ c.endpoint1) (h2 : q ≠ c.endpoint2)
    (hreg : getChannel reg c.id = some c)
    (hid0 : c.id ≠ 0) (hid1 : c.id ≤ 1000)
    (hbsz : bsz ≤ 256) (hbp : bptr = 0 ∨ validates bptr bsz = true) :
    c.receive q = (none, c) ∧
    syscallReceive reg q c.id bptr bsz = (-2, reg) := by
  have hrecv : c.receive q = (none, c) := by
    rw [Channel.receive, if_neg h1, if_neg h2]
  refine ⟨hrecv, ?_⟩
  rw [syscallReceive_guards_pass reg q c.id bptr bsz hid0 hid1 hbsz hbp,
    receive_message_unchanged reg q c.id c hreg (by rw [hrecv]), hrecv]

/-- Witness for C10: process 9 (not an endpoint of channel 5 between 2
and 3) receives nothing and the messages stay queued. -/
theorem c10_witness :
    (Channel.new 5 2 3).receive 9 = (none, Channel.new 5 2 3) ∧
    syscallReceive c8w_reg 9 5 0 0 = (-2, c8w_reg) :=
  c10_nonendpoint_receive (Channel.new 5 2 3) 9 c8w_reg 0 0
    (by decide) (by decide) (by decide) (by decide) (by decide) (by decide)
    (Or.inl rfl)

end Ruix








